import Mathlib

/-!
Verification of the mzd local agent daemon's security kernel.

This file gives a shallow embedding, in Lean, of the security-relevant
functions of the repository: the workspace path guard
(`src/mzd/security/path-validator.ts`), the command validator
(`src/mzd/security/command-validator.ts`), the tool dispatcher
(`src/mzd/tools/executor.ts`), the filesystem tools
(`src/mzd/tools/fs-tools.ts`) and the daemon's connect handler
(`src/mzd/server/daemon.ts`), together with theorems settling the stated
properties of those functions.

Modelling conventions:
* JavaScript strings are modelled as Lean `String`; the handful of
  JS string primitives the source uses (`startsWith`, `split`, `join`,
  `slice`) are defined here over `String.data` with JS semantics.
* `node:path` (posix flavour) is modelled segment-wise; the functions
  below implement its documented lexical algorithms.  One deviation:
  Node's `normalize`/`join` preserve a trailing `/`, the model drops it
  (no guarded decision in the source depends on a trailing separator).
* The JS regular expressions appearing as literals in the source are
  translated into an explicit syntax tree (`Re`) with a total matching
  function; user-supplied regex strings from the configuration (which the
  source compiles at run time with `new RegExp`, skipping the ones that
  fail to compile) are modelled by their compiled match function, an
  uncompilable pattern being the function that matches nothing.
* `ToolError.details` payloads are elided; errors are a code plus message.
-/

namespace Mzd

/-! ## JS string primitives -/

/-- Character-list core of JS `String.prototype.startsWith`. -/
def startsWithChars : List Char → List Char → Bool
  | [], _ => true
  | _ :: _, [] => false
  | p :: ps, c :: cs => p == c && startsWithChars ps cs

/-- Model of JS `s.startsWith(pre)`. -/
def jsStartsWith (s pre : String) : Bool :=
  startsWithChars pre.data s.data

/-- Character-list core of JS `String.prototype.split` with a one-character
separator: splits keeping empty pieces (`"a//b".split("/") = ["a","","b"]`,
`"".split("/") = [""]`). -/
def splitChars (sep : Char) : List Char → List (List Char)
  | [] => [[]]
  | c :: cs =>
    if c = sep then [] :: splitChars sep cs
    else
      match splitChars sep cs with
      | [] => [[c]]
      | g :: gs => (c :: g) :: gs

/-- Model of JS `s.split(sep)` for a one-character separator. -/
def splitOnChar (sep : Char) (s : String) : List String :=
  (splitChars sep s.data).map (fun l => ⟨l⟩)

/-- Model of JS `parts.join("/")`. -/
def joinSegs : List String → String
  | [] => ""
  | [s] => s
  | s :: rest => s ++ "/" ++ joinSegs rest

/-- Model of JS `parts.join(" ")`. -/
def joinSpace : List String → String
  | [] => ""
  | [s] => s
  | s :: rest => s ++ " " ++ joinSpace rest

/-- Model of JS `s.slice(n)` for a non-negative index. -/
def jsSlice (s : String) (n : Nat) : String :=
  ⟨s.data.drop n⟩

/-! ## `node:path` (posix) model -/

/-- `path.isAbsolute`: a posix path is absolute when it starts with `/`. -/
def isAbsolute (p : String) : Bool :=
  jsStartsWith p "/"

/-- Split a path into its non-empty segments (collapsing `//` and ignoring
leading/trailing separators). -/
def splitSegs (p : String) : List String :=
  (splitOnChar '/' p).filter (fun s => s ≠ "")

/-- Core of `path.normalize`'s lexical segment resolution: drop `.`
segments, let `..` cancel a preceding real segment; at the root of an
absolute path a `..` vanishes, at the start of a relative path it is
kept (also after other kept `..` segments).  `acc` holds the processed
segments in reverse. -/
def normSegsAux (isAbs : Bool) : List String → List String → List String
  | acc, [] => acc.reverse
  | acc, seg :: rest =>
    if seg = "." then normSegsAux isAbs acc rest
    else if seg = ".." then
      match acc with
      | [] => if isAbs then normSegsAux isAbs [] rest
              else normSegsAux isAbs [".."] rest
      | top :: accTl =>
        if top = ".." then normSegsAux isAbs (".." :: top :: accTl) rest
        else normSegsAux isAbs accTl rest
    else normSegsAux isAbs (seg :: acc) rest

/-- Normalised segment list of a path given its absoluteness. -/
def normSegs (isAbs : Bool) (segs : List String) : List String :=
  normSegsAux isAbs [] segs

/-- Model of `path.posix.normalize` (trailing separator not preserved). -/
def normalize (p : String) : String :=
  let abs := isAbsolute p
  let segs := normSegs abs (splitSegs p)
  if abs then "/" ++ joinSegs segs
  else if segs.isEmpty then "." else joinSegs segs

/-- Model of `path.posix.join(a, b)` for non-empty `a`:
concatenate with a separator and normalise. -/
def joinPath (a b : String) : String :=
  normalize (a ++ "/" ++ b)

/-- Length of the longest common segment prefix of two segment lists. -/
def commonPreLen : List String → List String → Nat
  | a :: as, b :: bs => if a = b then commonPreLen as bs + 1 else 0
  | _, _ => 0

/-- `isLead f t` decides whether segment list `f` is an initial run of
segment list `t`. -/
def isLead : List String → List String → Bool
  | [], _ => true
  | _ :: _, [] => false
  | a :: as, b :: bs => a == b && isLead as bs

/-- Model of `path.posix.relative(fromPath, toPath)` for absolute
arguments (the only way the source calls it: the workspace root is
absolute and the target has been made absolute): resolve both, drop the
common leading segments, emit one `..` per remaining `fromPath` segment
followed by the remaining `toPath` segments. -/
def relSegs (fromSegs toSegs : List String) : List String :=
  List.replicate (fromSegs.length - commonPreLen fromSegs toSegs) ".." ++
    toSegs.drop (commonPreLen fromSegs toSegs)

def pathRelative (fromPath toPath : String) : String :=
  joinSegs (relSegs (normSegs true (splitSegs fromPath)) (normSegs true (splitSegs toPath)))

/-- `underRoot absPath rootPath` holds when the resolved segments of
`rootPath` lead the resolved segments of `absPath`, i.e. `absPath` lies
under (or is) the root. -/
def underRoot (absPath rootPath : String) : Bool :=
  isLead (normSegs true (splitSegs rootPath)) (normSegs true (splitSegs absPath))

/-! ## Glob matcher (`matchGlob` / `matchGlobSimple`)

`matchGlobSimple` in the source compiles the glob into an anchored JS
regex by (a) escaping regex metacharacters, (b) turning `**` into `.*`,
`*` into `[^/]*` and `?` into `[^/]`, and testing it.  We model the
compiled regex faithfully: the left-to-right replacement passes amount to
tokenising the glob (`globToks`), and the anchored regex test is the
total matcher `tokMatch` over those tokens. -/

/-- One token of the regex compiled from a glob pattern. -/
inductive GTok where
  /-- `**`, compiled to `.*`: any run of characters, `/` included. -/
  | dstar : GTok
  /-- `*`, compiled to `[^/]*`: any run of characters other than `/`. -/
  | star : GTok
  /-- `?`, compiled to `[^/]`: exactly one character other than `/`. -/
  | qmark : GTok
  /-- any other character, escaped where needed: itself, literally. -/
  | lit (c : Char) : GTok
deriving DecidableEq

/-- Tokenise a glob pattern, consuming `**` before `*` exactly as the
source's ordered replacement passes do. -/
def globToks : List Char → List GTok
  | '*' :: '*' :: rest => .dstar :: globToks rest
  | '*' :: rest => .star :: globToks rest
  | '?' :: rest => .qmark :: globToks rest
  | c :: rest => .lit c :: globToks rest
  | [] => []

/-- `.*` followed by a continuation `k`: succeeds when `k` accepts the
whole input or any of its suffixes (the wildcard consumes the dropped
characters, separators included). -/
def suffixAny (k : List Char → Bool) : List Char → Bool
  | [] => k []
  | c :: s => k (c :: s) || suffixAny k s

/-- `[^/]*` followed by a continuation `k`: like `suffixAny` but the
wildcard may only consume characters other than `/`. -/
def nonSlashAny (k : List Char → Bool) : List Char → Bool
  | [] => k []
  | c :: s => k (c :: s) || (decide (c ≠ '/') && nonSlashAny k s)

/-- Anchored match of a token list against a character list; the model of
testing the compiled `^...$` regex. -/
def tokMatch : List GTok → List Char → Bool
  | [], s => s.isEmpty
  | .dstar :: ts, s => suffixAny (tokMatch ts) s
  | .star :: ts, s => nonSlashAny (tokMatch ts) s
  | .qmark :: ts, s =>
    (match s with
     | [] => false
     | c :: s' => decide (c ≠ '/') && tokMatch ts s')
  | .lit c :: ts, s =>
    (match s with
     | [] => false
     | c' :: s' => c == c' && tokMatch ts s')

/-- Model of the source's `matchGlobSimple`: compile the pattern and run
the anchored regex over the string. -/
def matchGlobSimple (pattern str : String) : Bool :=
  tokMatch (globToks pattern.data) str.data

/-- Model of the source's `matchGlob`: a leading `**/` is stripped and the
rest is tried against the whole path and against the path with any number
of leading segments removed. -/
def matchGlob (pattern str : String) : Bool :=
  if jsStartsWith pattern "**/" then
    let processedPattern := jsSlice pattern 3
    let parts := splitOnChar '/' str
    (List.range parts.length).any fun i =>
      matchGlobSimple processedPattern (joinSegs (parts.drop i))
  else
    matchGlobSimple pattern str

/-! ## Tool error codes and errors (`tools/types.ts`) -/

/-- The `ToolErrorCode` enum of `tools/types.ts`. -/
inductive ToolErrorCode where
  | FORBIDDEN_PATH
  | WORKSPACE_NOT_FOUND
  | PATH_NOT_FOUND
  | INVALID_PATH
  | COMMAND_DENIED
  | APPROVAL_REQUIRED
  | APPROVAL_DENIED
  | APPROVAL_TIMEOUT
  | PATCH_FAILED
  | GIT_ERROR
  | COMMAND_FAILED
  | COMMAND_TIMEOUT
  | INTERNAL_ERROR
deriving DecidableEq

/-- The string value of each `ToolErrorCode` enum member. -/
def toolErrorCodeStr : ToolErrorCode → String
  | .FORBIDDEN_PATH => "FORBIDDEN_PATH"
  | .WORKSPACE_NOT_FOUND => "WORKSPACE_NOT_FOUND"
  | .PATH_NOT_FOUND => "PATH_NOT_FOUND"
  | .INVALID_PATH => "INVALID_PATH"
  | .COMMAND_DENIED => "COMMAND_DENIED"
  | .APPROVAL_REQUIRED => "APPROVAL_REQUIRED"
  | .APPROVAL_DENIED => "APPROVAL_DENIED"
  | .APPROVAL_TIMEOUT => "APPROVAL_TIMEOUT"
  | .PATCH_FAILED => "PATCH_FAILED"
  | .GIT_ERROR => "GIT_ERROR"
  | .COMMAND_FAILED => "COMMAND_FAILED"
  | .COMMAND_TIMEOUT => "COMMAND_TIMEOUT"
  | .INTERNAL_ERROR => "INTERNAL_ERROR"

/-- A structured tool error: a code and a human message (the optional
`details` payload of the source is elided). -/
structure ToolError where
  code : ToolErrorCode
  message : String
deriving DecidableEq

/-- Model of `createToolError` (details elided). -/
def createToolError (code : ToolErrorCode) (message : String) : ToolError :=
  ⟨code, message⟩

/-! ## Configuration (`config/types.ts`), restricted to the modelled fields -/

/-- The permission tiers. -/
inductive PermissionTier where
  | read
  | write
  | exec
deriving DecidableEq

/-- String value of a tier. -/
def tierStr : PermissionTier → String
  | .read => "read"
  | .write => "write"
  | .exec => "exec"

/-- A workspace configuration (`WorkspaceConfigSchema`). -/
structure WorkspaceConfig where
  name : String
  path : String
  tier : PermissionTier
  denyPatterns : List String
  allowGit : Bool

/-- A user-supplied command pattern from `config.commands`.  The source
stores a regex string and compiles it with `new RegExp` at check time,
skipping any pattern that fails to compile; a compiled pattern is
modelled by its match function, an uncompilable one by the function that
matches nothing (the silent-skip branch). -/
def UserPattern := String → Bool

/-- `config.commands` (`CommandAllowlistSchema`). -/
structure CommandAllowlist where
  allow : List UserPattern
  deny : List UserPattern

/-- `config.approvals` (`ApprovalConfigSchema`); `autoApprovePatterns`
modelled like the command patterns. -/
structure ApprovalConfig where
  requireWriteApproval : Bool
  requireExecApproval : Bool
  autoApprovePatterns : List UserPattern
  approvalTimeoutMs : Nat

/-- The daemon configuration restricted to the fields the modelled
functions read (`version`, `workspaces`, `defaultWorkspace`, `server` and
`logging` are not consulted by them). -/
structure MzdConfig where
  commands : CommandAllowlist
  approvals : ApprovalConfig
  globalDenyPatterns : List String

/-- Model of `getDefaultConfig()`: the schema defaults of
`config/types.ts`. -/
def getDefaultConfig : MzdConfig :=
  ⟨⟨[], []⟩,
   ⟨true, true, [], 300000⟩,
   ["**/.git/config", "**/.ssh/**", "**/.aws/**", "**/.env", "**/.env.*",
    "**/secrets/**", "**/*.pem", "**/*.key", "**/credentials*",
    "**/node_modules/**"]⟩

/-! ## Path guard (`security/path-validator.ts`) -/

/-- Result of path validation. -/
inductive PathValidationResult where
  | valid (absolutePath relativePath : String)
  | invalid (error : ToolError)
deriving DecidableEq

/-- `DEFAULT_DENY_PATTERNS` of `path-validator.ts`. -/
def DEFAULT_DENY_PATTERNS : List String :=
  [ -- Git internals (but allow .git/hooks for pre-commit)
   "**/.git/config",
   "**/.git/credentials",
   "**/.git/objects/**",
   "**/.git/refs/**",
   -- SSH keys
   "**/.ssh/**",
   -- AWS credentials
   "**/.aws/**",
   -- Environment files
   "**/.env",
   "**/.env.*",
   "**/.env.local",
   "**/.env.*.local",
   -- Secret directories
   "**/secrets/**",
   "**/.secrets/**",
   -- Private keys
   "**/*.pem",
   "**/*.key",
   "**/id_rsa*",
   "**/id_ed25519*",
   "**/id_ecdsa*",
   -- Credential files
   "**/credentials*",
   "**/password*",
   "**/token*",
   -- Package managers sensitive
   "**/.npmrc",
   "**/.pypirc",
   -- macOS/Windows system
   "**/.DS_Store",
   "**/Thumbs.db"]

/-- The absolute path `validatePath` works on: the normalised input,
joined with the workspace root when it is not already absolute
(lines 112-118 of `path-validator.ts`). -/
def resolveInput (inputPath : String) (workspace : WorkspaceConfig) : String :=
  let normalizedInput := normalize inputPath
  if isAbsolute normalizedInput then normalizedInput
  else joinPath workspace.path normalizedInput

/-- The deny-pattern loop of `validatePath` (lines 143-166): first match
wins; a pattern is matched against the relative path, and additionally
against the absolute path when it starts with `/`. -/
def checkDenyPatterns : List String → String → String → Option ToolError
  | [], _, _ => none
  | pattern :: rest, relativePath, absolutePath =>
    if matchGlob pattern relativePath then
      some (createToolError .FORBIDDEN_PATH
        ("Path matches deny pattern: " ++ pattern))
    else if jsStartsWith pattern "/" && matchGlob pattern absolutePath then
      some (createToolError .FORBIDDEN_PATH
        ("Absolute path matches deny pattern: " ++ pattern))
    else checkDenyPatterns rest relativePath absolutePath

/-- Model of `validatePath` (`path-validator.ts`, lines 107-173). -/
def validatePath (inputPath : String) (workspace : WorkspaceConfig)
    (config : MzdConfig) : PathValidationResult :=
  let absolutePath := resolveInput inputPath workspace
  let relativePath := pathRelative workspace.path absolutePath
  if jsStartsWith relativePath ".." || isAbsolute relativePath then
    .invalid (createToolError .FORBIDDEN_PATH
      ("Path escapes workspace boundary: " ++ inputPath))
  else
    match checkDenyPatterns
        (DEFAULT_DENY_PATTERNS ++ config.globalDenyPatterns ++ workspace.denyPatterns)
        relativePath absolutePath with
    | some e => .invalid e
    | none => .valid absolutePath relativePath

/-! ## Lemmas about the path model -/

theorem commonPreLen_le (f t : List String) : commonPreLen f t ≤ f.length := by
  induction f generalizing t with
  | nil => simp [commonPreLen]
  | cons a as ih =>
    cases t with
    | nil => simp [commonPreLen]
    | cons b bs =>
      by_cases hab : a = b
      · simpa [commonPreLen, hab] using ih bs
      · simp [commonPreLen, hab]

theorem isLead_of_commonPreLen (f t : List String)
    (h : commonPreLen f t = f.length) : isLead f t = true := by
  induction f generalizing t with
  | nil => simp [isLead]
  | cons a as ih =>
    cases t with
    | nil => simp [commonPreLen] at h
    | cons b bs =>
      by_cases hab : a = b
      · simp only [commonPreLen, hab, if_true, List.length_cons] at h
        simp [isLead, hab, ih bs (by omega)]
      · simp [commonPreLen, hab, List.length_cons] at h

theorem jsStartsWith_joinSegs_dotdot (rest : List String) :
    jsStartsWith (joinSegs (".." :: rest)) ".." = true := by
  cases rest with
  | nil => decide
  | cons r rs =>
    have hdd : String.data ".." = ['.', '.'] := rfl
    show startsWithChars (String.data "..") (String.data (".." ++ "/" ++ joinSegs (r :: rs))) = true
    rw [String.data_append, String.data_append, hdd]
    simp [startsWithChars]

/-- If the workspace root is not a lead of the resolved target, the
relative path computed by the guard starts with `..` (the traversal check
then fires).  The converse direction is not true in general — a path whose
first remaining segment merely begins with the characters `..` (say
`..foo`) also makes the string start with `..` — so the guard may reject
some paths that do lie under the root, but it accepts none outside it. -/
theorem jsStartsWith_joinSegs_relSegs (f t : List String)
    (h0 : isLead f t = false) :
    jsStartsWith (joinSegs (relSegs f t)) ".." = true := by
  have hne : commonPreLen f t ≠ f.length := by
    intro he
    rw [isLead_of_commonPreLen _ _ he] at h0
    simp at h0
  have hle := commonPreLen_le f t
  unfold relSegs
  generalize hk : f.length - commonPreLen f t = k
  cases k with
  | zero => omega
  | succ k' =>
    rw [List.replicate_succ, List.cons_append]
    exact jsStartsWith_joinSegs_dotdot _

/-- If the workspace root is not a lead of the resolved target, the
relative path computed by the guard starts with `..` (the traversal check
then fires).  The converse direction is not true in general — a path whose
first remaining segment merely begins with the characters `..` (say
`..foo`) also makes the string start with `..` — so the guard may reject
some paths that do lie under the root, but it accepts none outside it. -/
theorem rel_dotdot_of_not_underRoot (root absp : String)
    (h0 : underRoot absp root = false) :
    jsStartsWith (pathRelative root absp) ".." = true :=
  jsStartsWith_joinSegs_relSegs _ _ h0

/-- C1: for every input path, workspace and configuration, if
`validatePath` accepts, the returned absolute path lies under the
workspace root (and the returned relative path neither starts with a
parent-directory reference nor is absolute); conversely, whenever the
normalised, root-joined form of the input does not lie under the
workspace root, `validatePath` rejects with a `FORBIDDEN_PATH` error. -/
theorem validatePath_workspace_containment
    (inputPath : String) (workspace : WorkspaceConfig) (config : MzdConfig)
    (_habs : isAbsolute workspace.path = true) :
    (∀ a r, validatePath inputPath workspace config = .valid a r →
        underRoot a workspace.path = true ∧
        jsStartsWith r ".." = false ∧ isAbsolute r = false) ∧
    (underRoot (resolveInput inputPath workspace) workspace.path = false →
        validatePath inputPath workspace config =
          .invalid (createToolError .FORBIDDEN_PATH
            ("Path escapes workspace boundary: " ++ inputPath))) := by
  constructor
  · intro a r h
    simp only [validatePath] at h
    split at h
    · exact absurd h (by simp)
    · rename_i hcond
      rw [Bool.or_eq_true, not_or] at hcond
      obtain ⟨hdd, habs2⟩ := hcond
      rw [Bool.not_eq_true] at hdd habs2
      split at h
      · exact absurd h (by simp)
      · injection h with ha hr
        subst ha
        subst hr
        refine ⟨?_, hdd, habs2⟩
        by_contra hur
        rw [Bool.not_eq_true] at hur
        rw [rel_dotdot_of_not_underRoot _ _ hur] at hdd
        simp at hdd
  · intro hur
    have hdd := rel_dotdot_of_not_underRoot _ _ hur
    simp only [validatePath, hdd, Bool.true_or, if_true]

/-- The workspace used throughout the repository's own test-suite. -/
def testWorkspace : WorkspaceConfig :=
  ⟨"test", "/home/user/myproject", .write, [], true⟩

/-- Witness for C1 at the test-suite's traversal scenario: the root is
absolute, `../../../etc/passwd` resolves outside it, and the guard
returns the `FORBIDDEN_PATH` boundary error. -/
theorem validatePath_workspace_containment_witness :
    validatePath "../../../etc/passwd" testWorkspace getDefaultConfig =
      .invalid (createToolError .FORBIDDEN_PATH
        "Path escapes workspace boundary: ../../../etc/passwd") :=
  (validatePath_workspace_containment "../../../etc/passwd" testWorkspace
    getDefaultConfig (by decide)).2 (by decide)

/-! ## Denotational semantics of the compiled glob regex -/

/-- Denotational reading of a compiled glob pattern: `dstar` (`**`,
compiled to `.*`) consumes an arbitrary run of characters — separators
included — while `star` (`*`, compiled to `[^/]*`) consumes a run free of
`/`, `qmark` (`?`) one non-`/` character, and a literal consumes itself. -/
inductive TokSem : List GTok → List Char → Prop where
  | nil : TokSem [] []
  | dstar (s1 s2 : List Char) (ts : List GTok) :
      TokSem ts s2 → TokSem (.dstar :: ts) (s1 ++ s2)
  | star (s1 s2 : List Char) (ts : List GTok) (h : ∀ c ∈ s1, c ≠ '/') :
      TokSem ts s2 → TokSem (.star :: ts) (s1 ++ s2)
  | qmark (c : Char) (s : List Char) (ts : List GTok) (h : c ≠ '/') :
      TokSem ts s → TokSem (.qmark :: ts) (c :: s)
  | lit (c : Char) (s : List Char) (ts : List GTok) :
      TokSem ts s → TokSem (.lit c :: ts) (c :: s)

theorem suffixAny_of_continuation {k : List Char → Bool} {s : List Char}
    (h : k s = true) : suffixAny k s = true := by
  cases s with
  | nil => exact h
  | cons c s' => simp [suffixAny, h]

theorem suffixAny_append {k : List Char → Bool} {s2 : List Char}
    (h : k s2 = true) : ∀ s1, suffixAny k (s1 ++ s2) = true := by
  intro s1
  induction s1 with
  | nil => exact suffixAny_of_continuation h
  | cons c s1' ih => simp [suffixAny, ih]

theorem suffixAny_split {k : List Char → Bool} :
    ∀ {s : List Char}, suffixAny k s = true →
      ∃ s1 s2, s = s1 ++ s2 ∧ k s2 = true := by
  intro s
  induction s with
  | nil => intro h; exact ⟨[], [], rfl, h⟩
  | cons c s' ih =>
    intro h
    rw [suffixAny, Bool.or_eq_true] at h
    rcases h with h | h
    · exact ⟨[], c :: s', rfl, h⟩
    · obtain ⟨s1, s2, heq, hk⟩ := ih h
      exact ⟨c :: s1, s2, by rw [heq, List.cons_append], hk⟩

theorem nonSlashAny_of_continuation {k : List Char → Bool} {s : List Char}
    (h : k s = true) : nonSlashAny k s = true := by
  cases s with
  | nil => exact h
  | cons c s' => simp [nonSlashAny, h]

theorem nonSlashAny_append {k : List Char → Bool} {s2 : List Char}
    (h : k s2 = true) :
    ∀ s1, (∀ c ∈ s1, c ≠ '/') → nonSlashAny k (s1 ++ s2) = true := by
  intro s1
  induction s1 with
  | nil => intro _; exact nonSlashAny_of_continuation h
  | cons c s1' ih =>
    intro hall
    have h1 := ih (fun x hx => hall x (List.mem_cons_of_mem c hx))
    simp [nonSlashAny, h1, hall c (List.mem_cons_self c s1')]

theorem nonSlashAny_split {k : List Char → Bool} :
    ∀ {s : List Char}, nonSlashAny k s = true →
      ∃ s1 s2, s = s1 ++ s2 ∧ (∀ c ∈ s1, c ≠ '/') ∧ k s2 = true := by
  intro s
  induction s with
  | nil => intro h; exact ⟨[], [], rfl, by simp, h⟩
  | cons c s' ih =>
    intro h
    rw [nonSlashAny, Bool.or_eq_true] at h
    rcases h with h | h
    · exact ⟨[], c :: s', rfl, by simp, h⟩
    · rw [Bool.and_eq_true, decide_eq_true_eq] at h
      obtain ⟨s1, s2, heq, hfree, hk⟩ := ih h.2
      refine ⟨c :: s1, s2, by rw [heq, List.cons_append], ?_, hk⟩
      intro x hx
      rcases List.mem_cons.mp hx with hx | hx
      · exact hx ▸ h.1
      · exact hfree x hx

theorem tokMatch_of_TokSem {ts : List GTok} {s : List Char}
    (h : TokSem ts s) : tokMatch ts s = true := by
  induction h with
  | nil => rfl
  | dstar s1 s2 ts _ ih => exact suffixAny_append ih s1
  | star s1 s2 ts h1 _ ih => exact nonSlashAny_append ih s1 h1
  | qmark c s ts hc _ ih => simp [tokMatch, hc, ih]
  | lit c s ts _ ih => simp [tokMatch, ih]

theorem TokSem_of_tokMatch : ∀ (ts : List GTok) (s : List Char),
    tokMatch ts s = true → TokSem ts s := by
  intro ts
  induction ts with
  | nil =>
    intro s h
    rw [tokMatch, List.isEmpty_eq_true] at h
    exact h ▸ TokSem.nil
  | cons t ts ih =>
    intro s h
    cases t with
    | dstar =>
      obtain ⟨s1, s2, heq, hk⟩ := suffixAny_split h
      exact heq ▸ TokSem.dstar s1 s2 ts (ih s2 hk)
    | star =>
      obtain ⟨s1, s2, heq, hfree, hk⟩ := nonSlashAny_split h
      exact heq ▸ TokSem.star s1 s2 ts hfree (ih s2 hk)
    | qmark =>
      cases s with
      | nil => exact Bool.noConfusion h
      | cons c s' =>
        have h' : (decide (c ≠ '/') && tokMatch ts s') = true := h
        rw [Bool.and_eq_true, decide_eq_true_eq] at h'
        exact TokSem.qmark c s' ts h'.1 (ih s' h'.2)
    | lit c =>
      cases s with
      | nil => exact Bool.noConfusion h
      | cons c1 s' =>
        have h' : (c == c1 && tokMatch ts s') = true := h
        rw [Bool.and_eq_true, beq_iff_eq] at h'
        exact h'.1 ▸ TokSem.lit c s' ts (ih s' h'.2)

theorem startsWithChars_self_append (p x : List Char) :
    startsWithChars p (p ++ x) = true := by
  induction p with
  | nil => rfl
  | cons c cs ih => simp [startsWithChars, ih]

theorem jsSlice_append_three (q : String) : jsSlice ("**/" ++ q) 3 = q := by
  unfold jsSlice
  rw [String.data_append]
  have h3 : String.data "**/" = ['*', '*', '/'] := rfl
  rw [h3]
  show (⟨q.data⟩ : String) = q
  cases q
  rfl

theorem jsStartsWith_dstar_slash (q : String) :
    jsStartsWith ("**/" ++ q) "**/" = true := by
  unfold jsStartsWith
  rw [String.data_append]
  exact startsWithChars_self_append _ _

/-- The `**/`-prefixed branch of `matchGlob`: the stripped pattern is
tried at every directory depth, depth zero included. -/
theorem matchGlob_dstar_slash_iff (q s : String) :
    matchGlob ("**/" ++ q) s = true ↔
      ∃ i < (splitOnChar '/' s).length,
        matchGlobSimple q (joinSegs ((splitOnChar '/' s).drop i)) = true := by
  unfold matchGlob
  rw [jsStartsWith_dstar_slash, if_pos rfl, jsSlice_append_three]
  rw [List.any_eq_true]
  constructor
  · rintro ⟨i, hi, hm⟩
    exact ⟨i, List.mem_range.mp hi, hm⟩
  · rintro ⟨i, hi, hm⟩
    exact ⟨i, List.mem_range.mpr hi, hm⟩

/-- C7 counterexample: the claim says `a/**/b` matches `a/b` (a `**`
standing for zero path segments), but the compiled regex is `a/.*/b`,
which requires both literal separators, so the guard's matcher rejects
`a/b`. -/
theorem matchGlob_zero_segment_cex : matchGlob "a/**/b" "a/b" = false := by
  decide

/-- C7 (amended): the matcher's exact semantics.  In `matchGlobSimple`
a compiled token list matches per `TokSem`: `*` matches a run of non-`/`
characters, `?` one non-`/` character, a literal matches itself, and `**`
matches an arbitrary run of characters including `/` — not zero or more
whole segments, so `a/**/b` matches `a/x/y/b` but not `a/b`.  A leading
`**/` is handled separately by `matchGlob` and does match at any depth,
zero included. -/
theorem matchGlob_semantics :
    (∀ p s : String, matchGlobSimple p s = true ↔ TokSem (globToks p.data) s.data) ∧
    (∀ q s : String, matchGlob ("**/" ++ q) s = true ↔
      ∃ i < (splitOnChar '/' s).length,
        matchGlobSimple q (joinSegs ((splitOnChar '/' s).drop i)) = true) ∧
    matchGlob "a/**/b" "a/x/y/b" = true ∧
    matchGlob "a/**/b" "a/b" = false ∧
    matchGlob "**/p" "p" = true ∧
    matchGlob "**/p" "x/y/p" = true := by
  refine ⟨fun p s => ⟨TokSem_of_tokMatch _ _, tokMatch_of_TokSem⟩,
    matchGlob_dstar_slash_iff, by decide, by decide, by decide, by decide⟩

/-- Witness for C7 (amended): the equivalence applied at the deny pattern
`*.pem` and the path `k.pem` yields the denotational derivation. -/
theorem matchGlob_semantics_witness :
    TokSem (globToks (String.data "*.pem")) (String.data "k.pem") :=
  (matchGlob_semantics.1 "*.pem" "k.pem").mp (by decide)

/-! ## Patch inspector (`extractPathsFromPatch`, `validatePatchPaths`)

`extractPathsFromPatch` matches each line of the diff against the JS
regexes `^diff --git a\/(.+) b\/(.+)$`, `^--- a\/(.+)$` and
`^\+\+\+ b\/(.+)$`.  The two-group header regex is greedy: the first
`(.+)` backtracks from the longest candidate, so the line splits at the
last occurrence of `" b/"` that leaves both groups non-empty.  `dropPre?`
models the literal prefix, `lastFeasibleSplit` that greedy split. -/

/-- Strip a literal prefix from a character list, or fail. -/
def dropPre? : List Char → List Char → Option (List Char)
  | [], s => some s
  | _ :: _, [] => none
  | p :: ps, c :: cs => if p = c then dropPre? ps cs else none

/-- The greedy split of `s` at the separator `sep`: the decomposition
`s = l ++ sep ++ r` with non-empty `r` and the longest possible `l`, as
chosen by the backtracking `(.+) b\/(.+)$` regex (the first group's
non-emptiness is checked by the caller; a later occurrence always gives
a longer first group, so only the occurrence at position zero can give an
empty one, and then it is the only candidate). -/
def lastFeasibleSplit (sep : List Char) : List Char → Option (List Char × List Char)
  | [] => none
  | c :: s =>
    match lastFeasibleSplit sep s with
    | some (l, r) => some (c :: l, r)
    | none =>
      if startsWithChars sep (c :: s) then
        let r := (c :: s).drop sep.length
        if r.isEmpty then none else some ([], r)
      else none

/-- Model of matching `^diff --git a\/(.+) b\/(.+)$` and returning both
groups. -/
def parseDiffGitLine (line : String) : Option (String × String) :=
  match dropPre? (String.data "diff --git a/") line.data with
  | none => none
  | some rest =>
    match lastFeasibleSplit (String.data " b/") rest with
    | none => none
    | some (l, r) => if l.isEmpty then none else some (⟨l⟩, ⟨r⟩)

/-- Model of matching `^--- a\/(.+)$` and returning the group. -/
def parseMinusLine (line : String) : Option String :=
  match dropPre? (String.data "--- a/") line.data with
  | none => none
  | some rest => if rest.isEmpty then none else some ⟨rest⟩

/-- Model of matching `^\+\+\+ b\/(.+)$` and returning the group. -/
def parsePlusLine (line : String) : Option String :=
  match dropPre? (String.data "+++ b/") line.data with
  | none => none
  | some rest => if rest.isEmpty then none else some ⟨rest⟩

/-- `Set.prototype.add` on the insertion-ordered path set. -/
def addPath (paths : List String) (p : String) : List String :=
  if p ∈ paths then paths else paths ++ [p]

/-- The `+++` arm of the per-line loop (reached when the `---` regex did
not match, or matched `/dev/null` and fell through without `continue`). -/
def extractPlus (paths : List String) (line : String) : List String :=
  match parsePlusLine line with
  | some p => if p ≠ "/dev/null" then addPath paths p else paths
  | none => paths

/-- One iteration of `extractPathsFromPatch`'s line loop: a `diff --git`
header adds both groups (with no `/dev/null` filter), a `--- a/` header
adds its group unless it is `/dev/null`, a `+++ b/` header likewise. -/
def extractLine (paths : List String) (line : String) : List String :=
  match parseDiffGitLine line with
  | some (x, y) => addPath (addPath paths x) y
  | none =>
    match parseMinusLine line with
    | some p => if p ≠ "/dev/null" then addPath paths p else extractPlus paths line
    | none => extractPlus paths line

/-- Model of `extractPathsFromPatch` (`path-validator.ts`, lines
210-237). -/
def extractPathsFromPatch (patch : String) : List String :=
  (splitOnChar '\n' patch).foldl extractLine []

/-- Result record of `validatePatchPaths`. -/
structure PatchPathsResult where
  valid : Bool
  paths : List String
  errors : List ToolError
deriving DecidableEq

/-- Model of `validatePatchPaths` (`path-validator.ts`, lines 242-262). -/
def validatePatchPaths (patch : String) (workspace : WorkspaceConfig)
    (config : MzdConfig) : PatchPathsResult :=
  let paths := extractPathsFromPatch patch
  let errors := paths.filterMap (fun p =>
    match validatePath p workspace config with
    | .invalid e => some e
    | .valid _ _ => none)
  ⟨errors.isEmpty, paths, errors⟩

/-! ## Lemmas about the patch inspector -/

theorem dropPre?_self_append : ∀ (p s : List Char), dropPre? p (p ++ s) = some s := by
  intro p
  induction p with
  | nil => intro s; rfl
  | cons c cs ih => intro s; simp [dropPre?, ih]

theorem lastFeasibleSplit_none_of_no_space {tl : List Char} :
    ∀ {s : List Char}, (∀ c ∈ s, c ≠ ' ') → lastFeasibleSplit (' ' :: tl) s = none := by
  intro s
  induction s with
  | nil => intro _; rfl
  | cons c s' ih =>
    intro hs
    have hc : ¬(' ' = c) := fun he => hs c (List.mem_cons_self c s') he.symm
    rw [lastFeasibleSplit, ih (fun x hx => hs x (List.mem_cons_of_mem c hx))]
    simp [startsWithChars, hc]

theorem lastFeasibleSplit_spaced {tl A B : List Char}
    (htl : ∀ c ∈ tl, c ≠ ' ') (hA : ∀ c ∈ A, c ≠ ' ') (hB : ∀ c ∈ B, c ≠ ' ')
    (hBne : B ≠ []) :
    lastFeasibleSplit (' ' :: tl) (A ++ (' ' :: tl) ++ B) = some (A, B) := by
  induction A with
  | nil =>
    rw [List.nil_append, List.cons_append, lastFeasibleSplit]
    have hrest : ∀ c ∈ tl ++ B, c ≠ ' ' := by
      intro x hx
      rcases List.mem_append.mp hx with hx | hx
      · exact htl x hx
      · exact hB x hx
    rw [lastFeasibleSplit_none_of_no_space hrest]
    have hsw : startsWithChars (' ' :: tl) (' ' :: (tl ++ B)) = true := by
      have := startsWithChars_self_append (' ' :: tl) B
      rwa [List.cons_append] at this
    rw [hsw]
    simp only [if_true]
    have hdrop : (' ' :: (tl ++ B)).drop (' ' :: tl).length = B := by
      have := List.drop_left (' ' :: tl) B
      rwa [List.cons_append] at this
    rw [hdrop]
    simp [List.isEmpty_eq_true, hBne]
  | cons a A' ih =>
    have ha : ¬(' ' = a) := fun he => hA a (List.mem_cons_self a A') he.symm
    rw [List.cons_append, List.cons_append, lastFeasibleSplit]
    rw [show A' ++ (' ' :: tl) ++ B = A' ++ ((' ' :: tl) ++ B) from List.append_assoc _ _ _] at *
    rw [ih (fun x hx => hA x (List.mem_cons_of_mem a hx))]

theorem strEta (s : String) : (⟨s.data⟩ : String) = s := by
  cases s
  rfl

theorem data_isEmpty_false_of_ne {P : String} (hne : P ≠ "") :
    P.data.isEmpty = false := by
  cases hd : P.data with
  | nil => exact absurd (by cases P; simp_all) hne
  | cons c cs => rfl

theorem parseDiffGitLine_roundTrip (P : String) (hne : P ≠ "")
    (hsp : ∀ c ∈ P.data, c ≠ ' ') :
    parseDiffGitLine ("diff --git a/" ++ P ++ " b/" ++ P) = some (P, P) := by
  have hdata : ("diff --git a/" ++ P ++ " b/" ++ P).data =
      (String.data "diff --git a/") ++ (P.data ++ (String.data " b/") ++ P.data) := by
    rw [String.data_append, String.data_append, String.data_append]
    simp [List.append_assoc]
  have hsplit : lastFeasibleSplit (String.data " b/")
      (P.data ++ (String.data " b/") ++ P.data) = some (P.data, P.data) := by
    have hsep : String.data " b/" = ' ' :: ['b', '/'] := rfl
    rw [hsep]
    exact lastFeasibleSplit_spaced (by decide) hsp hsp
      (fun h => hne (by cases P; simp_all))
  simp only [parseDiffGitLine, hdata, dropPre?_self_append, hsplit,
    data_isEmpty_false_of_ne hne, Bool.false_eq_true, if_false, strEta]

theorem parseMinusLine_roundTrip (P : String) (hne : P ≠ "") :
    parseMinusLine ("--- a/" ++ P) = some P := by
  simp only [parseMinusLine, String.data_append, dropPre?_self_append,
    data_isEmpty_false_of_ne hne, Bool.false_eq_true, if_false, strEta]

theorem parsePlusLine_roundTrip (P : String) (hne : P ≠ "") :
    parsePlusLine ("+++ b/" ++ P) = some P := by
  simp only [parsePlusLine, String.data_append, dropPre?_self_append,
    data_isEmpty_false_of_ne hne, Bool.false_eq_true, if_false, strEta]

theorem dropPre?_head_ne {p c : Char} {ps cs : List Char} (h : p ≠ c) :
    dropPre? (p :: ps) (c :: cs) = none := by
  simp [dropPre?, h]

theorem splitChars_no_sep {sep : Char} :
    ∀ {l : List Char}, (∀ c ∈ l, c ≠ sep) → splitChars sep l = [l] := by
  intro l
  induction l with
  | nil => intro _; rfl
  | cons c cs ih =>
    intro hs
    rw [splitChars, if_neg (hs c (List.mem_cons_self c cs)),
      ih (fun x hx => hs x (List.mem_cons_of_mem c hx))]

theorem splitOnChar_no_sep {sep : Char} {s : String}
    (h : ∀ c ∈ s.data, c ≠ sep) : splitOnChar sep s = [s] := by
  unfold splitOnChar
  rw [splitChars_no_sep h]
  cases s
  rfl

theorem extractPatch_single_line {line : String} (h : ∀ c ∈ line.data, c ≠ '\n') :
    extractPathsFromPatch line = extractLine [] line := by
  unfold extractPathsFromPatch
  rw [splitOnChar_no_sep h]
  rfl

/-- C9 counterexample.  First: the `diff --git` header regex carries no
`/dev/null` filter, so the patch `diff --git a//dev/null b//dev/null`
extracts the path set `{/dev/null}`; with workspace root `/` that path
even passes the guard (relative path `dev/null`), so a patch whose every
referenced path is accepted can still contain `/dev/null`, against the
claim.  Second: the header variants do not always agree either — for the
accepted path `x b/y` (a file name with a space), the greedy `diff
--git` split extracts `{x b/y b/x, y}` while the `---` header extracts
`{x b/y}`. -/
theorem extractPaths_devnull_cex :
    (extractPathsFromPatch "diff --git a//dev/null b//dev/null" = ["/dev/null"] ∧
     validatePath "/dev/null" ⟨"rootfs", "/", .write, [], true⟩ getDefaultConfig =
       .valid "/dev/null" "dev/null") ∧
    (validatePath "x b/y" testWorkspace getDefaultConfig =
       .valid "/home/user/myproject/x b/y" "x b/y" ∧
     extractPathsFromPatch "diff --git a/x b/y b/x b/y" = ["x b/y b/x", "y"] ∧
     extractPathsFromPatch "--- a/x b/y" = ["x b/y"]) := by
  exact ⟨⟨by decide, by decide⟩, ⟨by decide, by decide, by decide⟩⟩

/-- C9 (amended): for every non-empty path `P` without newline or space
that is not the literal string `/dev/null`, the three header variants
`diff --git a/P b/P`, `--- a/P` and `+++ b/P` all extract exactly `[P]`;
and `/dev/null` is never an element of the extracted set of a patch whose
referenced paths all pass the guard, provided the workspace root does not
place `/dev/null` under itself (it fails the guard for every root other
than `/`, `/dev` and `/dev/null`; spaces shift the greedy `diff --git`
split, and `/dev/null` itself is filtered only from `---`/`+++`
headers). -/
theorem extractPathsFromPatch_header_invariance :
    (∀ P : String, P ≠ "" → (∀ c ∈ P.data, c ≠ '\n' ∧ c ≠ ' ') → P ≠ "/dev/null" →
      extractPathsFromPatch ("diff --git a/" ++ P ++ " b/" ++ P) = [P] ∧
      extractPathsFromPatch ("--- a/" ++ P) = [P] ∧
      extractPathsFromPatch ("+++ b/" ++ P) = [P]) ∧
    (∀ (patch : String) (workspace : WorkspaceConfig) (config : MzdConfig),
      underRoot "/dev/null" workspace.path = false →
      (∀ p ∈ extractPathsFromPatch patch, ∃ a r, validatePath p workspace config = .valid a r) →
      "/dev/null" ∉ extractPathsFromPatch patch) := by
  constructor
  · intro P hne hP hdev
    have hgit : ∀ c ∈ String.data "diff --git a/", c ≠ '\n' := by decide
    have hbsl : ∀ c ∈ String.data " b/", c ≠ '\n' := by decide
    have hmin : ∀ c ∈ String.data "--- a/", c ≠ '\n' := by decide
    have hplu : ∀ c ∈ String.data "+++ b/", c ≠ '\n' := by decide
    refine ⟨?_, ?_, ?_⟩
    · have hnl : ∀ c ∈ ("diff --git a/" ++ P ++ " b/" ++ P).data, c ≠ '\n' := by
        rw [String.data_append, String.data_append, String.data_append]
        intro c hc
        simp only [List.mem_append] at hc
        rcases hc with ((hc | hc) | hc) | hc
        · exact hgit c hc
        · exact (hP c hc).1
        · exact hbsl c hc
        · exact (hP c hc).1
      rw [extractPatch_single_line hnl]
      rw [extractLine, parseDiffGitLine_roundTrip P hne (fun c hc => (hP c hc).2)]
      simp [addPath]
    · have hnl : ∀ c ∈ ("--- a/" ++ P).data, c ≠ '\n' := by
        rw [String.data_append]
        intro c hc
        rcases List.mem_append.mp hc with hc | hc
        · exact hmin c hc
        · exact (hP c hc).1
      rw [extractPatch_single_line hnl]
      have hnogit : parseDiffGitLine ("--- a/" ++ P) = none := by
        unfold parseDiffGitLine
        have h1 : String.data "diff --git a/" = 'd' :: String.data "iff --git a/" := rfl
        have h2 : String.data "--- a/" = '-' :: String.data "-- a/" := rfl
        rw [String.data_append, h1, h2, List.cons_append,
          dropPre?_head_ne (by decide)]
      rw [extractLine, hnogit, parseMinusLine_roundTrip P hne]
      simp [addPath, hdev]
    · have hnl : ∀ c ∈ ("+++ b/" ++ P).data, c ≠ '\n' := by
        rw [String.data_append]
        intro c hc
        rcases List.mem_append.mp hc with hc | hc
        · exact hplu c hc
        · exact (hP c hc).1
      rw [extractPatch_single_line hnl]
      have hnogit : parseDiffGitLine ("+++ b/" ++ P) = none := by
        unfold parseDiffGitLine
        have h1 : String.data "diff --git a/" = 'd' :: String.data "iff --git a/" := rfl
        have h2 : String.data "+++ b/" = '+' :: String.data "++ b/" := rfl
        rw [String.data_append, h1, h2, List.cons_append,
          dropPre?_head_ne (by decide)]
      have hnomin : parseMinusLine ("+++ b/" ++ P) = none := by
        unfold parseMinusLine
        have h1 : String.data "--- a/" = '-' :: String.data "-- a/" := rfl
        have h2 : String.data "+++ b/" = '+' :: String.data "++ b/" := rfl
        rw [String.data_append, h1, h2, List.cons_append,
          dropPre?_head_ne (by decide)]
      rw [extractLine, hnogit, hnomin]
      unfold extractPlus
      rw [parsePlusLine_roundTrip P hne]
      simp [addPath, hdev]
  · intro patch workspace config hur hall hmem
    obtain ⟨a, r, hv⟩ := hall _ hmem
    have hdd := rel_dotdot_of_not_underRoot workspace.path "/dev/null" hur
    have hres : resolveInput "/dev/null" workspace = "/dev/null" := rfl
    simp only [validatePath, hres, hdd, Bool.true_or, if_true] at hv
    exact absurd hv (by simp)

/-- Witness for C9 (amended) at the spec's round-trip scenario path
`src/main`: every header variant extracts the singleton set. -/
theorem extractPaths_header_invariance_witness :
    extractPathsFromPatch ("diff --git a/" ++ "src/main" ++ " b/" ++ "src/main") =
        ["src/main"] ∧
    extractPathsFromPatch ("--- a/" ++ "src/main") = ["src/main"] ∧
    extractPathsFromPatch ("+++ b/" ++ "src/main") = ["src/main"] :=
  extractPathsFromPatch_header_invariance.1 "src/main" (by decide) (by decide) (by decide)

/-! ## JS regular expressions of the command validator

The command validator's built-in patterns are JS regex literals.  They
are translated here into an explicit syntax tree with a total matcher.
Every quantifier in those literals (`\s*`, `\s+`, `.*`, `\d+`, `\w+`)
applies to a single-character class and every parenthesised group is
either an alternation of literals or under `?`, so `star`/`plus` range
over character classes and groups need no quantifier of their own.
Character classes are modelled over ASCII (the tokens the validator sees
are command lines). -/

/-- A single-character matcher of the JS regexes in use. -/
inductive CClass where
  /-- a literal character (escaped in the regex where needed) -/
  | one (c : Char)
  /-- `\s` -/
  | ws
  /-- `\w` -/
  | word
  /-- `\d` -/
  | digit
  /-- `.` (any character except a line terminator) -/
  | dot
deriving DecidableEq

def CClass.eval : CClass → Char → Bool
  | .one c, x => x == c
  | .ws, x => x == ' ' || x == '\t' || x == '\n' || x == '\r' || x == '\x0b' || x == '\x0c'
  | .word, x =>
    (decide ('a' ≤ x) && decide (x ≤ 'z')) || (decide ('A' ≤ x) && decide (x ≤ 'Z')) ||
      (decide ('0' ≤ x) && decide (x ≤ '9')) || x == '_'
  | .digit, x => decide ('0' ≤ x) && decide (x ≤ '9')
  | .dot, x => decide (x ≠ '\n') && decide (x ≠ '\r')

/-- Syntax of the JS regex bodies in use (`^` is kept outside, as a flag
on the pattern; `$` is the `eol` atom, which also appears inside groups
such as `(\s|$)`). -/
inductive Re where
  | eps : Re
  | atom (c : CClass) : Re
  | seq (a b : Re) : Re
  | alt (a b : Re) : Re
  | star (c : CClass) : Re
  | plus (c : CClass) : Re
  | opt (a : Re) : Re
  | eol : Re
deriving DecidableEq

/-- Remainders after `c*` consumed a (possibly empty) run of `f`-chars. -/
def starRem (f : CClass) : List Char → List (List Char)
  | [] => [[]]
  | c :: s => (c :: s) :: (if f.eval c then starRem f s else [])

/-- All remainders of the input after matching a prefix against `r`. -/
def reMatch : Re → List Char → List (List Char)
  | .eps, s => [s]
  | .atom f, s =>
    (match s with
     | [] => []
     | c :: s' => if f.eval c then [s'] else [])
  | .seq a b, s => (reMatch a s).flatMap (reMatch b)
  | .alt a b, s => reMatch a s ++ reMatch b s
  | .star f, s => starRem f s
  | .plus f, s =>
    (match s with
     | [] => []
     | c :: s' => if f.eval c then starRem f s' else [])
  | .opt a, s => s :: reMatch a s
  | .eol, s => if s.isEmpty then [s] else []

/-- A JS regex literal: whether it is `^`-anchored, and its body. -/
structure JsPattern where
  anchoredStart : Bool
  re : Re
deriving DecidableEq

/-- The body matches some prefix of `s`. -/
def matchesPre (r : Re) (s : List Char) : Bool :=
  !(reMatch r s).isEmpty

/-- The body matches starting at some position of `s` (JS `.test` for an
unanchored regex). -/
def searchMatch (r : Re) : List Char → Bool
  | [] => matchesPre r []
  | c :: s' => matchesPre r (c :: s') || searchMatch r s'

/-- Model of `pattern.test(s)`. -/
def reTest (p : JsPattern) (s : String) : Bool :=
  if p.anchoredStart then matchesPre p.re s.data else searchMatch p.re s.data

/-- Literal string as a regex. -/
def rstr (s : String) : Re :=
  s.data.foldr (fun c acc => .seq (.atom (.one c)) acc) .eps

/-- Concatenation of regexes. -/
def rcat (rs : List Re) : Re :=
  rs.foldr .seq .eps

/-- Alternation of a non-empty list of regexes. -/
def ralt : List Re → Re
  | [] => .eps
  | [r] => r
  | r :: rest => .alt r (ralt rest)

/-- `\s` -/
def rws : Re := .atom .ws
/-- `\s+` -/
def rwsP : Re := .plus .ws
/-- `\s*` -/
def rwsS : Re := .star .ws
/-- `.*` -/
def rdotS : Re := .star .dot
/-- `\w+` -/
def rwordP : Re := .plus .word
/-- `\d+` -/
def rdigitP : Re := .plus .digit
/-- `(\s|$)` -/
def rwsOrEol : Re := .alt (.atom .ws) .eol
/-- `['"]` (the single-quote and backtick characters are written via
`Char.ofNat` codes 39 and 96) -/
def rquote : Re := .alt (.atom (.one (Char.ofNat 39))) (.atom (.one '"'))

/-! ## Command validator (`security/command-validator.ts`) -/

/-- `ALWAYS_DENIED_PATTERNS` (`command-validator.ts`, lines 62-109), each
entry annotated with its JS regex literal. -/
def ALWAYS_DENIED_PATTERNS : List JsPattern :=
  [ -- Destructive operations
   ⟨true, rcat [rstr "rm", rwsP, rstr "-rf", rwsP, rstr "/"]⟩,            -- ^rm\s+-rf\s+\/
   ⟨true, rcat [rstr "rm", rwsP, rstr "-rf", rwsP, rstr "~"]⟩,            -- ^rm\s+-rf\s+~
   ⟨true, rcat [rstr "rm", rwsP, rstr "--no-preserve-root"]⟩,             -- ^rm\s+--no-preserve-root
   ⟨true, rstr "mkfs"⟩,                                                   -- ^mkfs
   ⟨true, rcat [rstr "dd", rwsP, rdotS, rstr "of=/dev"]⟩,                 -- ^dd\s+.*of=\/dev
   -- Network exfiltration
   ⟨true, rcat [rstr "curl", rwsP, rdotS, rstr "-d", rwsP, rstr "@"]⟩,    -- ^curl\s+.*-d\s+@
   ⟨true, rcat [rstr "wget", rwsP, rdotS, rstr "--post-file"]⟩,           -- ^wget\s+.*--post-file
   ⟨true, rcat [rstr "scp", rwsP, rdotS, rstr "@", rdotS, rstr ":"]⟩,     -- ^scp\s+.*@.*:
   ⟨true, rcat [rstr "rsync", rwsP, rdotS, rstr "@", rdotS, rstr ":"]⟩,   -- ^rsync\s+.*@.*:
   -- Privilege escalation
   ⟨true, rcat [rstr "sudo", rws]⟩,                                       -- ^sudo\s
   ⟨true, rcat [rstr "su", rws]⟩,                                         -- ^su\s
   ⟨true, rcat [rstr "doas", rws]⟩,                                       -- ^doas\s
   -- Cron/scheduled tasks
   ⟨true, rstr "crontab"⟩,                                                -- ^crontab
   ⟨true, rcat [rstr "at", rws]⟩,                                         -- ^at\s
   -- Service management
   ⟨true, rcat [rstr "systemctl", rwsP,
     ralt [rstr "start", rstr "stop", rstr "restart", rstr "enable", rstr "disable"]]⟩,
   ⟨true, rcat [rstr "service", rwsP, rwordP, rwsP,
     ralt [rstr "start", rstr "stop", rstr "restart"]]⟩,
   ⟨true, rcat [rstr "launchctl", rwsP,
     ralt [rstr "load", rstr "unload", rstr "kickstart"]]⟩,
   -- Package installation (system-wide)
   ⟨true, rcat [rstr "apt", .opt (rstr "-get"), rwsP,
     ralt [rstr "install", rstr "remove", rstr "purge"]]⟩,
   ⟨true, rcat [rstr "yum", rwsP, ralt [rstr "install", rstr "remove"]]⟩,
   ⟨true, rcat [rstr "dnf", rwsP, ralt [rstr "install", rstr "remove"]]⟩,
   ⟨true, rcat [rstr "brew", rwsP,
     ralt [rstr "install", rstr "uninstall", rstr "remove"]]⟩,
   -- Shell escapes
   ⟨false, rcat [rstr ";", rwsS, rstr "sh", rwsOrEol]⟩,                   -- ;\s*sh(\s|$)
   ⟨false, rcat [rstr "|", rwsS, rstr "sh", rwsOrEol]⟩,                   -- \|\s*sh(\s|$)
   ⟨false, rcat [.atom (.one (Char.ofNat 96)), rdotS,
     .atom (.one (Char.ofNat 96))]⟩,                                      -- backtick capture
   ⟨false, rcat [rstr "$(", rdotS, rstr ")"]⟩,                            -- \$\(.*\)
   -- Environment manipulation
   ⟨true, rcat [rstr "export", rwsP, rdotS, rstr "="]⟩,                   -- ^export\s+.*=
   ⟨true, rcat [rstr "env", rwsP, rwordP, rstr "="]⟩,                     -- ^env\s+\w+=
   -- Python/Node dangerous patterns
   ⟨false, rcat [rstr "python", rdotS, rstr "-c", rwsP, rquote, rdotS,
     rstr "import", rwsP, ralt [rstr "os", rstr "subprocess", rstr "socket"]]⟩,
   ⟨false, rcat [rstr "node", rdotS, rstr "-e", rwsP, rquote, rdotS,
     rstr "require", rwsS, rstr "(", rquote, rstr "child_process"]⟩]

/-- `DEFAULT_ALLOWED_COMMANDS` (`command-validator.ts`, lines 11-57),
each entry annotated with its JS regex literal. -/
def DEFAULT_ALLOWED_COMMANDS : List JsPattern :=
  [ -- Version/help commands
   ⟨true, rcat [ralt [rstr "node", rstr "npm", rstr "npx", rstr "pnpm",
      rcat [rstr "bun", .opt (rstr "x")], rstr "yarn", rstr "deno",
      rcat [rstr "python", .opt (rstr "3")], rstr "ruby", rstr "go",
      rstr "cargo", rstr "make", rstr "cmake"], rwsP,
     ralt [rstr "--version", rstr "-v", rstr "--help", rstr "-h"], .eol]⟩,
   -- Package managers - read/install only
   ⟨true, rcat [rstr "npm", rwsP,
     ralt [rstr "list", rstr "ls", rstr "outdated", rstr "audit", rstr "view",
       rstr "info", rstr "search", rstr "run", rstr "test", rstr "exec"], rwsOrEol]⟩,
   ⟨true, rcat [rstr "pnpm", rwsP,
     ralt [rstr "list", rstr "ls", rstr "outdated", rstr "audit", rstr "view",
       rstr "run", rstr "test", rstr "exec"], rwsOrEol]⟩,
   ⟨true, rcat [rstr "yarn", rwsP,
     ralt [rstr "list", rstr "outdated", rstr "info", rstr "run", rstr "test"], rwsOrEol]⟩,
   ⟨true, rcat [rstr "bun", rwsP, ralt [rstr "run", rstr "test", rstr "x"], rwsOrEol]⟩,
   -- Build tools
   ⟨true, rcat [ralt [rstr "npm", rstr "pnpm", rstr "yarn", rstr "bun"], rwsP,
     .opt (rcat [rstr "run", rwsP]),
     ralt [rstr "build", rstr "compile", rstr "bundle", rstr "prepare"], rwsOrEol]⟩,
   ⟨true, rcat [ralt [rstr "make", rstr "cmake"],
     .opt (rcat [rwsP, rstr "-j", rdigitP]), .opt (rcat [rwsP, rwordP]), .eol]⟩,
   ⟨true, rcat [rstr "cargo", rwsP,
     ralt [rstr "build", rstr "check", rstr "clippy", rstr "fmt", rstr "test"], rwsOrEol]⟩,
   ⟨true, rcat [rstr "go", rwsP,
     ralt [rstr "build", rstr "test", rstr "vet", rstr "fmt", rstr "mod"], rwsOrEol]⟩,
   -- Test runners
   ⟨true, rcat [ralt [rstr "npm", rstr "pnpm", rstr "yarn", rstr "bun"], rwsP,
     .opt (rcat [rstr "run", rwsP]), rstr "test", rwsOrEol]⟩,
   ⟨true, rcat [ralt [rstr "pytest", rstr "jest", rstr "vitest", rstr "mocha",
     rstr "ava", rstr "tap", rstr "bun test"], rwsOrEol]⟩,
   ⟨true, rcat [rstr "python", .opt (rstr "3"), rwsP, rstr "-m", rwsP,
     ralt [rstr "pytest", rstr "unittest"], rwsOrEol]⟩,
   -- Linters and formatters
   ⟨true, rcat [ralt [rstr "eslint", rstr "prettier", rstr "oxlint", rstr "biome",
     rstr "ruff", rstr "black", rstr "isort", rstr "gofmt", rstr "rustfmt"], rwsOrEol]⟩,
   ⟨true, rcat [ralt [rstr "npm", rstr "pnpm", rstr "yarn", rstr "bun"], rwsP,
     .opt (rcat [rstr "run", rwsP]),
     ralt [rstr "lint", rstr "format", rstr "check"], rwsOrEol]⟩,
   -- Type checkers
   ⟨true, rcat [ralt [rstr "tsc", rstr "pyright", rstr "mypy"], rwsOrEol]⟩,
   ⟨true, rcat [ralt [rstr "npm", rstr "pnpm", rstr "yarn", rstr "bun"], rwsP,
     .opt (rcat [rstr "run", rwsP]),
     ralt [rstr "typecheck", rstr "types"], rwsOrEol]⟩,
   -- Git read-only commands
   ⟨true, rcat [rstr "git", rwsP,
     ralt [rstr "status", rstr "log", rstr "diff", rstr "show", rstr "branch",
       rstr "tag", rstr "remote", rcat [rstr "config", rwsP, rstr "--get"]], rwsOrEol]⟩,
   ⟨true, rcat [rstr "git", rwsP, rstr "ls-files", rwsOrEol]⟩,
   -- File listing (read-only)
   ⟨true, rcat [rstr "ls", rwsOrEol]⟩,
   ⟨true, rcat [rstr "find", rwsP, rstr ".", rws]⟩,                       -- ^find\s+\.\s
   ⟨true, rcat [rstr "tree", rwsOrEol]⟩,
   ⟨true, rcat [rstr "wc", rwsOrEol]⟩,
   ⟨true, rcat [rstr "head", rwsOrEol]⟩,
   ⟨true, rcat [rstr "tail", rwsOrEol]⟩,
   ⟨true, rcat [rstr "cat", rwsOrEol]⟩,
   ⟨true, rcat [rstr "less", rwsOrEol]⟩,
   ⟨true, rcat [rstr "grep", rwsOrEol]⟩,
   ⟨true, rcat [rstr "rg", rwsOrEol]⟩,
   ⟨true, rcat [rstr "ag", rwsOrEol]⟩,
   ⟨true, rcat [rstr "fd", rwsOrEol]⟩]

/-- Result of command validation. -/
inductive CommandValidationResult where
  | allowed
  | denied (error : ToolError)
deriving DecidableEq

/-- The full command line matched against the patterns
(`command + " " + args.join(" ")`). -/
def buildFullCommand (command : String) (args : List String) : String :=
  if args.length > 0 then command ++ " " ++ joinSpace args else command

/-- Model of `validateCommand` (`command-validator.ts`, lines 119-186).
The layers in order: built-in always-deny, user deny, user allow,
built-in default allow, final deny. -/
def validateCommand (command : String) (args : List String)
    (allowlist : CommandAllowlist) : CommandValidationResult :=
  let fullCommand := buildFullCommand command args
  match ALWAYS_DENIED_PATTERNS.find? (fun p => reTest p fullCommand) with
  | some _ => .denied (createToolError .COMMAND_DENIED
      "Command matches dangerous pattern and is not allowed")
  | none =>
    match allowlist.deny.find? (fun p => p fullCommand) with
    | some _ => .denied (createToolError .COMMAND_DENIED
        "Command matches deny pattern in configuration")
    | none =>
      if allowlist.allow.any (fun p => p fullCommand) then .allowed
      else if DEFAULT_ALLOWED_COMMANDS.any (fun p => reTest p fullCommand) then .allowed
      else .denied (createToolError .COMMAND_DENIED
        "Command not in allowlist. Add it to config.commands.allow if needed.")

/-- C2: a command line matching a built-in always-deny pattern is denied
with `COMMAND_DENIED` for every user allow list and every user deny list;
the always-deny layer runs before any user pattern is consulted. -/
theorem validateCommand_always_denied (command : String) (args : List String)
    (allowlist : CommandAllowlist)
    (h : (ALWAYS_DENIED_PATTERNS.any
        fun p => reTest p (buildFullCommand command args)) = true) :
    validateCommand command args allowlist =
      .denied (createToolError .COMMAND_DENIED
        "Command matches dangerous pattern and is not allowed") := by
  obtain ⟨p, hp, hm⟩ := List.any_eq_true.mp h
  cases hf : ALWAYS_DENIED_PATTERNS.find?
      (fun p => reTest p (buildFullCommand command args)) with
  | none =>
    rw [List.find?_eq_none] at hf
    exact absurd hm (by simpa using hf p hp)
  | some q => simp only [validateCommand, hf]

/-- Witness for C2 at the spec's shell-escape scenario: `ls ; sh` is
denied even though the user allow list matches everything. -/
theorem validateCommand_always_denied_witness :
    validateCommand "ls" [";", "sh"] ⟨[fun _ => true], []⟩ =
      .denied (createToolError .COMMAND_DENIED
        "Command matches dangerous pattern and is not allowed") :=
  validateCommand_always_denied "ls" [";", "sh"] ⟨[fun _ => true], []⟩ (by decide)

/-! ## Tool registry and dispatcher (`tools/types.ts`, `tools/executor.ts`) -/

/-- The closed `ToolName` union. -/
inductive ToolName where
  | fsList
  | fsRead
  | fsApplyPatch
  | gitStatus
  | gitDiff
  | gitCheckout
  | gitCommit
  | cmdRun
deriving DecidableEq

/-- The dotted string of each tool name. -/
def toolNameStr : ToolName → String
  | .fsList => "fs.list"
  | .fsRead => "fs.read"
  | .fsApplyPatch => "fs.apply_patch"
  | .gitStatus => "git.status"
  | .gitDiff => "git.diff"
  | .gitCheckout => "git.checkout"
  | .gitCommit => "git.commit"
  | .cmdRun => "cmd.run"

/-- A registry entry (`ToolDefinition`); the JSON `inputSchema` blob is
elided. -/
structure ToolDefinition where
  name : ToolName
  description : String
  tier : PermissionTier
  requiresApproval : Bool
deriving DecidableEq

/-- `TOOL_DEFINITIONS` (`tools/types.ts`, lines 250-395). -/
def TOOL_DEFINITIONS : List ToolDefinition :=
  [⟨.fsList, "List files and directories in a workspace path", .read, false⟩,
   ⟨.fsRead, "Read contents of a file in the workspace", .read, false⟩,
   ⟨.fsApplyPatch, "Apply a unified diff patch to files in the workspace", .write, true⟩,
   ⟨.gitStatus, "Get git status for the workspace", .read, false⟩,
   ⟨.gitDiff, "Get git diff for the workspace", .read, false⟩,
   ⟨.gitCheckout, "Checkout a branch or commit", .write, true⟩,
   ⟨.gitCommit, "Create a git commit", .write, true⟩,
   ⟨.cmdRun, "Run an allowed command in the workspace", .exec, true⟩]

/-- The numeric priorities the dispatcher compares
(`executor.ts`, lines 50-54). -/
def tierPriority : PermissionTier → Nat
  | .read => 1
  | .write => 2
  | .exec => 3

/-- Outcome of the dispatch prologue: either the call is routed to the
named implementation (which performs I/O and is not modelled here), or it
is refused with an error before the implementation runs. -/
inductive DispatchOutcome where
  | routed (name : ToolName)
  | errored (e : ToolError)
deriving DecidableEq

/-- Model of `executeTool` (`executor.ts`, lines 37-92) up to the point
where the `switch` hands the input to the tool implementation: registry
lookup, then the tier check, then routing by name. -/
def executeTool (name : ToolName) (workspace : WorkspaceConfig) : DispatchOutcome :=
  match TOOL_DEFINITIONS.find? (fun t => t.name == name) with
  | none => .errored (createToolError .INTERNAL_ERROR
      ("Unknown tool: " ++ toolNameStr name))
  | some toolDef =>
    if tierPriority toolDef.tier > tierPriority workspace.tier then
      .errored (createToolError .FORBIDDEN_PATH
        ("Tool \"" ++ toolNameStr name ++ "\" requires \"" ++ tierStr toolDef.tier ++
          "\" tier, but workspace has \"" ++ tierStr workspace.tier ++ "\""))
    else .routed name

/-- The total order `read < write < exec` as the spec states it, written
independently of the dispatcher's numeric priorities. -/
def tierLeSpec : PermissionTier → PermissionTier → Bool
  | .read, _ => true
  | .write, .read => false
  | .write, _ => true
  | .exec, .exec => true
  | .exec, _ => false

/-- C3: for every registered tool, the dispatcher routes the call to the
implementation exactly when the workspace tier dominates the tool's
required tier in the order `read < write < exec`, and refuses it with a
`FORBIDDEN_PATH` error when the workspace tier is lower. -/
theorem executeTool_tier_gate (name : ToolName) (d : ToolDefinition)
    (hfind : TOOL_DEFINITIONS.find? (fun t => t.name == name) = some d)
    (workspace : WorkspaceConfig) :
    (executeTool name workspace = .routed name ↔
      tierLeSpec d.tier workspace.tier = true) ∧
    (tierLeSpec d.tier workspace.tier = false →
      executeTool name workspace = .errored (createToolError .FORBIDDEN_PATH
        ("Tool \"" ++ toolNameStr name ++ "\" requires \"" ++ tierStr d.tier ++
          "\" tier, but workspace has \"" ++ tierStr workspace.tier ++ "\""))) := by
  have hle : ∀ a b : PermissionTier,
      tierLeSpec a b = true ↔ ¬ tierPriority a > tierPriority b := by
    intro a b
    cases a <;> cases b <;> simp [tierLeSpec, tierPriority]
  constructor
  · constructor
    · intro h
      rw [hle]
      intro hgt
      simp only [executeTool, hfind, if_pos hgt] at h
      exact absurd h (by simp)
    · intro h
      have hgt := (hle d.tier workspace.tier).mp h
      simp only [executeTool, hfind, if_neg hgt]
  · intro h
    have hgt : tierPriority d.tier > tierPriority workspace.tier := by
      by_contra hc
      rw [← hle] at hc
      simp [h] at hc
    simp only [executeTool, hfind, if_pos hgt]

/-- Witness for C3: on a read-tier workspace, `cmd.run` (exec tier) is
refused with `FORBIDDEN_PATH`, while `fs.read` is routed. -/
theorem executeTool_tier_gate_witness :
    executeTool .cmdRun ⟨"test", "/home/user/myproject", .read, [], true⟩ =
      .errored (createToolError .FORBIDDEN_PATH
        "Tool \"cmd.run\" requires \"exec\" tier, but workspace has \"read\"") :=
  (executeTool_tier_gate .cmdRun
    ⟨.cmdRun, "Run an allowed command in the workspace", .exec, true⟩
    (by decide) ⟨"test", "/home/user/myproject", .read, [], true⟩).2 (by decide)

/-! ## Filesystem read tool (`fs-tools.ts`, `fsRead`) -/

/-- `DEFAULT_MAX_BYTES` of `fs-tools.ts`. -/
def DEFAULT_MAX_BYTES : Nat := 200000

/-- The source's default for a missing `offset` input. -/
def DEFAULT_READ_OFFSET : Nat := 0

/-- A successful `fs.read` payload: the returned bytes (the UTF-8 versus
base64 re-encoding of the same bytes is elided), the `truncated` flag and
the true file `size`. -/
structure FsReadOk where
  content : List Nat
  truncated : Bool
  size : Nat
deriving DecidableEq

inductive FsReadResult where
  | ok (r : FsReadOk)
  | err (e : ToolError)
deriving DecidableEq

/-- Model of the read phase of `fsRead` (`fs-tools.ts`, lines 323-361)
for a regular file given as its byte list, after the path guard and the
`isFile` check have succeeded.  JS number arithmetic is modelled on
`Int`: `Buffer.alloc(Math.min(maxBytes, stats.size - offset))` throws a
`RangeError` when the length is negative, which the surrounding `catch`
(with no `ENOENT` code) converts to an `INTERNAL_ERROR`; `handle.read`
of `bufLen` bytes at `offset` with `offset + bufLen ≤ size` yields
exactly `bufLen` bytes. -/
def fsReadModel (file : List Nat) (maxBytes offset : Int) : FsReadResult :=
  let size : Int := file.length
  let bufLen : Int := min maxBytes (size - offset)
  if bufLen < 0 then
    .err (createToolError .INTERNAL_ERROR
      "Failed to read file: invalid buffer length")
  else
    let bytesRead : Nat := bufLen.toNat
    let content := (file.drop offset.toNat).take bytesRead
    .ok ⟨content, decide (offset + bytesRead < size), file.length⟩

/-- C8: for a regular file of size `S` and `0 ≤ offset ≤ S`, `fs.read`
returns exactly `min maxBytes (S - offset)` bytes starting at `offset`,
reports the true size `S`, and sets `truncated` exactly when
`offset + bytesRead < S`. -/
theorem fsRead_bounded_slice (file : List Nat) (maxBytes offset : Nat)
    (hoff : offset ≤ file.length) :
    ∃ r, fsReadModel file (maxBytes : Int) (offset : Int) = .ok r ∧
      r.content = (file.drop offset).take (min maxBytes (file.length - offset)) ∧
      r.content.length = min maxBytes (file.length - offset) ∧
      r.size = file.length ∧
      (r.truncated = true ↔ offset + r.content.length < file.length) := by
  have hbuf : min (maxBytes : Int) ((file.length : Int) - (offset : Int)) =
      ((min maxBytes (file.length - offset) : Nat) : Int) := by omega
  have hlen : ((file.drop offset).take (min maxBytes (file.length - offset))).length =
      min maxBytes (file.length - offset) := by
    rw [List.length_take, List.length_drop]
    omega
  simp only [fsReadModel, hbuf]
  rw [if_neg (by omega : ¬ ((min maxBytes (file.length - offset) : Nat) : Int) < 0)]
  simp only [Int.toNat_natCast]
  refine ⟨_, rfl, rfl, hlen, rfl, ?_⟩
  simp only [hlen, decide_eq_true_eq]
  omega

/-- Witness for C8: a five-byte file read with `maxBytes = 2` from
`offset = 1` yields the two middle bytes, reports size 5, and is marked
truncated. -/
theorem fsRead_bounded_slice_witness :
    ∃ r, fsReadModel [10, 20, 30, 40, 50] (2 : Nat) (1 : Nat) = .ok r ∧
      r.content = ([10, 20, 30, 40, 50].drop 1).take (min 2 ([10, 20, 30, 40, 50].length - 1)) ∧
      r.content.length = min 2 ([10, 20, 30, 40, 50].length - 1) ∧
      r.size = [10, 20, 30, 40, 50].length ∧
      (r.truncated = true ↔ 1 + r.content.length < [10, 20, 30, 40, 50].length) :=
  fsRead_bounded_slice [10, 20, 30, 40, 50] 2 1 (by decide)

/-- C10: an `fs.read` whose `offset` exceeds the file size does not
return an empty success: the negative buffer length throws and the call
reports `INTERNAL_ERROR`; an `fs.read` at `offset` exactly the file size
succeeds with empty content and `truncated = false`. -/
theorem fsRead_offset_beyond_eof (file : List Nat) (maxBytes : Nat) (offset : Int)
    (hoff : (file.length : Int) < offset) :
    fsReadModel file (maxBytes : Int) offset =
      .err (createToolError .INTERNAL_ERROR
        "Failed to read file: invalid buffer length") ∧
    fsReadModel file (maxBytes : Int) (file.length : Int) =
      .ok ⟨[], false, file.length⟩ := by
  constructor
  · simp only [fsReadModel]
    rw [if_pos (by omega)]
  · have h0 : min (maxBytes : Int) ((file.length : Int) - (file.length : Int)) = 0 := by
      omega
    simp only [fsReadModel, h0]
    rw [if_neg (by omega : ¬ (0 : Int) < 0)]
    simp

/-- Witness for C10: reading a three-byte file at `offset = 7` fails with
`INTERNAL_ERROR`, and at `offset = 3` succeeds empty and untruncated. -/
theorem fsRead_offset_beyond_eof_witness :
    fsReadModel [10, 20, 30] ((200000 : Nat) : Int) (7 : Int) =
      .err (createToolError .INTERNAL_ERROR
        "Failed to read file: invalid buffer length") ∧
    fsReadModel [10, 20, 30] ((200000 : Nat) : Int) (([10, 20, 30] : List Nat).length : Int) =
      .ok ⟨[], false, ([10, 20, 30] : List Nat).length⟩ :=
  fsRead_offset_beyond_eof [10, 20, 30] 200000 7 (by decide)

/-! ## Pending approvals and the `fs.apply_patch` gate
(`runtime/context.ts`, `server/approval.ts`, `fs-tools.ts`) -/

/-- `PendingApproval.type`. -/
inductive ApprovalType where
  | write
  | exec
  | patch
deriving DecidableEq

/-- A pending approval record (`runtime/context.ts`, lines 65-72); the
untyped `details` blob is elided, dates are epoch milliseconds. -/
structure PendingApproval where
  id : String
  type : ApprovalType
  description : String
  createdAt : Nat
  timeoutAt : Nat
deriving DecidableEq

/-- Model of `createApprovalRequest` (`server/approval.ts`,
lines 551-572): the random id and the clock are passed explicitly; the
record is inserted into the context's pending-approval table and
returned. -/
def createApprovalRequest (pendingApprovals : List PendingApproval)
    (id : String) (now : Nat) (approvalTimeoutMs : Nat)
    (type : ApprovalType) (description : String) :
    PendingApproval × List PendingApproval :=
  let approval : PendingApproval := ⟨id, type, description, now, now + approvalTimeoutMs⟩
  (approval, pendingApprovals ++ [approval])

/-- Decision reached by `fsApplyPatch` before its effect boundary: either
a rejection, or the hand-off to `git apply` (whose invocation and stat
parsing are I/O and not modelled). -/
inductive ApplyPatchDecision where
  | rejected (e : ToolError)
  | proceedToApply (paths : List String) (dryRun : Bool)
deriving DecidableEq

/-- Model of `fsApplyPatch` (`fs-tools.ts`, lines 376-403) from entry up
to the `execSync("git apply ...")` call, with the pending-approval table
passed as explicit state: validate every path of the patch (first error
wins), refuse a read-tier workspace, and — when the configuration
requires write approval and the call is not a dry run — merely log
"Patch requires approval" (the source's comment: "In a real
implementation, this would trigger an approval flow") without creating a
pending approval or returning `APPROVAL_REQUIRED`, then proceed to
apply. -/
def fsApplyPatchGate (patchUnified : String) (dryRun : Bool)
    (workspace : WorkspaceConfig) (config : MzdConfig)
    (pendingApprovals : List PendingApproval) :
    ApplyPatchDecision × List PendingApproval :=
  let pathValidation := validatePatchPaths patchUnified workspace config
  match pathValidation.errors with
  | e :: _ => (.rejected e, pendingApprovals)
  | [] =>
    if workspace.tier = .read then
      (.rejected (createToolError .FORBIDDEN_PATH
        "Workspace has read-only tier. Cannot apply patches."), pendingApprovals)
    else
      -- `if (ctx.config.approvals.requireWriteApproval && !dryRun)` only
      -- calls `logger.info`; the table is left untouched on every path.
      (.proceedToApply pathValidation.paths dryRun, pendingApprovals)

/-- C5 (code bug): with `requireWriteApproval = true` and
`dryRun = false`, on a patch whose paths all pass the guard and a
write-tier workspace, `fs.apply_patch` proceeds straight to `git apply`:
the pending-approval table is returned unchanged and no
`APPROVAL_REQUIRED` record or error is produced, although the tool is
registered with `requiresApproval = true` and the approval machinery
(`createApprovalRequest`) exists.  Evaluated at the concrete failing
input `diff --git a/src/main.ts b/src/main.ts\n--- a/src/main.ts\n+++
b/src/main.ts` under the default configuration (which sets
`requireWriteApproval = true`). -/
theorem fsApplyPatch_approval_skipped :
    getDefaultConfig.approvals.requireWriteApproval = true ∧
    fsApplyPatchGate
        "diff --git a/src/main.ts b/src/main.ts\n--- a/src/main.ts\n+++ b/src/main.ts"
        false testWorkspace getDefaultConfig [] =
      (.proceedToApply ["src/main.ts"] false, []) := by
  constructor
  · rfl
  · decide

/-! ## Daemon connect handler and wire error codes (`server/daemon.ts`)

Tokens are modelled as byte lists: the stored daemon token is 43 ASCII
base64url characters, so JS string length and UTF-8 buffer length
coincide for it, and `Buffer.from(token)` is its byte sequence. -/

/-- Model of `crypto.timingSafeEqual` on equal-length buffers: it
inspects every byte pair and accumulates, never returning early (a
length mismatch case is unreachable behind the guard below). -/
def bytesEqAll : List Nat → List Nat → Bool
  | [], [] => true
  | x :: xs, y :: ys => (x == y) && bytesEqAll xs ys
  | _, _ => false

/-- The number of byte comparisons `bytesEqAll` performs: one per
position, regardless of where (or whether) the inputs differ. -/
def bytesEqSteps : List Nat → List Nat → Nat
  | _ :: xs, _ :: ys => bytesEqSteps xs ys + 1
  | _, _ => 0

/-- The token check of `handleConnect` (`daemon.ts`, lines 207-211):
`providedToken.length === this.authToken.length &&
crypto.timingSafeEqual(Buffer.from(providedToken),
Buffer.from(this.authToken))`. -/
def tokenValid (authToken providedToken : List Nat) : Bool :=
  providedToken.length == authToken.length && bytesEqAll providedToken authToken

/-- Byte comparisons performed by the token check: the `&&`
short-circuits, so a length mismatch performs none. -/
def comparisonSteps (authToken providedToken : List Nat) : Nat :=
  if providedToken.length == authToken.length
  then bytesEqSteps providedToken authToken
  else 0

/-- Observable outcome of `connect`: the session flag, response status,
the error code of a failure frame, and the close status code. -/
structure ConnectOutcome where
  authenticated : Bool
  ok : Bool
  errorCode : Option String
  closeCode : Option Nat
deriving DecidableEq

/-- Model of `handleConnect` (`daemon.ts`, lines 201-249); the hello
payload of the success case is elided. -/
def handleConnect (authToken providedToken : List Nat) : ConnectOutcome :=
  if tokenValid authToken providedToken then ⟨true, true, none, none⟩
  else ⟨false, false, some "AUTH_FAILED", some 4001⟩

theorem bytesEqAll_iff : ∀ a b : List Nat, bytesEqAll a b = true ↔ a = b := by
  intro a
  induction a with
  | nil =>
    intro b
    cases b <;> simp [bytesEqAll]
  | cons x xs ih =>
    intro b
    cases b with
    | nil => simp [bytesEqAll]
    | cons y ys => simp [bytesEqAll, ih ys]

theorem bytesEqSteps_length : ∀ a b : List Nat, a.length = b.length →
    bytesEqSteps a b = a.length := by
  intro a
  induction a with
  | nil =>
    intro b hb
    cases b with
    | nil => rfl
    | cons y ys => simp at hb
  | cons x xs ih =>
    intro b hb
    cases b with
    | nil => simp at hb
    | cons y ys =>
      simp only [List.length_cons] at hb
      simp [bytesEqSteps, ih ys (by omega)]

/-- C6: `connect` authenticates exactly when the provided token equals
the stored token byte for byte; a length mismatch is rejected with zero
byte comparisons; and on equal-length inputs the number of byte
comparisons is the token length, identical for any two same-length
inputs — the comparison work does not depend on where the tokens
differ. -/
theorem handleConnect_constant_time (authToken providedToken : List Nat) :
    ((handleConnect authToken providedToken).authenticated = true ↔
      providedToken = authToken) ∧
    (providedToken.length ≠ authToken.length →
      comparisonSteps authToken providedToken = 0) ∧
    (providedToken.length = authToken.length →
      comparisonSteps authToken providedToken = authToken.length) ∧
    (∀ t1 t2 : List Nat, t1.length = authToken.length → t2.length = authToken.length →
      comparisonSteps authToken t1 = comparisonSteps authToken t2) := by
  refine ⟨?_, ?_, ?_, ?_⟩
  · unfold handleConnect tokenValid
    by_cases hv : (providedToken.length == authToken.length &&
        bytesEqAll providedToken authToken) = true
    · rw [if_pos hv]
      rw [Bool.and_eq_true, bytesEqAll_iff] at hv
      simp [hv.2]
    · rw [if_neg hv]
      rw [Bool.and_eq_true, bytesEqAll_iff] at hv
      simp only [ConnectOutcome.mk.injEq]
      constructor
      · intro h
        exact absurd h (by simp)
      · intro he
        exact absurd ⟨by simp [he], he⟩ hv
  · intro h
    unfold comparisonSteps
    rw [if_neg (by simpa using h)]
  · intro h
    unfold comparisonSteps
    rw [if_pos (by simpa using h), bytesEqSteps_length _ _ (by rw [h]), h]
  · intro t1 t2 h1 h2
    unfold comparisonSteps
    rw [if_pos (by simpa using h1), if_pos (by simpa using h2),
      bytesEqSteps_length _ _ (by rw [h1]), bytesEqSteps_length _ _ (by rw [h2]), h1, h2]

/-- Witness for C6 on three-byte tokens: the right token authenticates, a
wrong same-length token does not, a short token costs zero comparisons,
and any two same-length tokens cost the same (three) comparisons. -/
theorem handleConnect_constant_time_witness :
    (handleConnect [1, 2, 3] [1, 2, 3]).authenticated = true ∧
    ¬ (handleConnect [1, 2, 3] [9, 2, 3]).authenticated = true ∧
    comparisonSteps [1, 2, 3] [1, 2] = 0 ∧
    comparisonSteps [1, 2, 3] [9, 9, 9] = 3 ∧
    comparisonSteps [1, 2, 3] [7, 7, 7] = comparisonSteps [1, 2, 3] [1, 2, 9] :=
  ⟨(handleConnect_constant_time [1, 2, 3] [1, 2, 3]).1.mpr rfl,
   fun h => (by decide : ¬ ([9, 2, 3] : List Nat) = [1, 2, 3])
     ((handleConnect_constant_time [1, 2, 3] [9, 2, 3]).1.mp h),
   (handleConnect_constant_time [1, 2, 3] [1, 2]).2.1 (by decide),
   (handleConnect_constant_time [1, 2, 3] [9, 9, 9]).2.2.1 rfl,
   (handleConnect_constant_time [1, 2, 3] [7, 7, 7]).2.2.2 [7, 7, 7] [1, 2, 9] rfl rfl⟩

/-! ## The outward error-code sets (C4) -/

/-- The code strings of the spec's claimed closed set (§3 of the spec). -/
def specClosedErrorCodes : List String :=
  ["FORBIDDEN_PATH", "PATH_NOT_FOUND", "INVALID_PATH", "COMMAND_DENIED",
   "PATCH_FAILED", "VCS_ERROR", "COMMAND_FAILED", "COMMAND_TIMEOUT",
   "APPROVAL_REQUIRED", "APPROVAL_DENIED", "UNAUTHORIZED",
   "PAYLOAD_TOO_LARGE", "METHOD_NOT_FOUND", "INTERNAL_ERROR"]

/-- The string codes the daemon itself places in failure response frames
(`daemon.ts`: the parse, frame-shape, auth, unknown-method, payload-size
and tool-dispatch catch sites); tool-layer codes pass through
unchanged. -/
def daemonWireCodes : List String :=
  ["PARSE_ERROR", "INVALID_REQUEST", "AUTH_FAILED", "UNAUTHORIZED",
   "METHOD_NOT_FOUND", "PAYLOAD_TOO_LARGE", "INTERNAL_ERROR"]

/-- The closed set of codes the implementation can emit outward: the
`ToolErrorCode` enum values together with the daemon's own frame
codes. -/
def actualErrorCodes : List String :=
  ["FORBIDDEN_PATH", "WORKSPACE_NOT_FOUND", "PATH_NOT_FOUND", "INVALID_PATH",
   "COMMAND_DENIED", "APPROVAL_REQUIRED", "APPROVAL_DENIED", "APPROVAL_TIMEOUT",
   "PATCH_FAILED", "GIT_ERROR", "COMMAND_FAILED", "COMMAND_TIMEOUT",
   "INTERNAL_ERROR", "PARSE_ERROR", "INVALID_REQUEST", "AUTH_FAILED",
   "UNAUTHORIZED", "METHOD_NOT_FOUND", "PAYLOAD_TOO_LARGE"]

/-- C4 counterexample: a failed `connect` puts the code `AUTH_FAILED` on
the wire and the git tools produce `GIT_ERROR`; neither code belongs to
the claimed closed set (which instead names a `VCS_ERROR` that no
`ToolErrorCode` value carries). -/
theorem toolError_codes_cex :
    (handleConnect [97] [98]).errorCode = some "AUTH_FAILED" ∧
    "AUTH_FAILED" ∉ specClosedErrorCodes ∧
    toolErrorCodeStr .GIT_ERROR = "GIT_ERROR" ∧
    "GIT_ERROR" ∉ specClosedErrorCodes := by
  refine ⟨by decide, by decide, rfl, by decide⟩

/-- C4 (amended): every outward-visible failure code is drawn from the
closed set `actualErrorCodes` — the thirteen `ToolErrorCode` enum values
(which include `WORKSPACE_NOT_FOUND`, `APPROVAL_TIMEOUT` and `GIT_ERROR`,
the latter where the spec says `VCS_ERROR`) plus the daemon's six frame
codes (`PARSE_ERROR`, `INVALID_REQUEST`, `AUTH_FAILED`, `UNAUTHORIZED`,
`METHOD_NOT_FOUND`, `PAYLOAD_TOO_LARGE`); `VCS_ERROR` itself is never
emitted. -/
theorem toolError_codes_amended :
    (∀ c : ToolErrorCode, toolErrorCodeStr c ∈ actualErrorCodes) ∧
    daemonWireCodes.all (fun s => actualErrorCodes.contains s) = true ∧
    "VCS_ERROR" ∉ actualErrorCodes ∧
    (∀ c : ToolErrorCode, toolErrorCodeStr c ≠ "VCS_ERROR") := by
  refine ⟨fun c => ?_, by decide, by decide, fun c => ?_⟩
  · cases c <;> decide
  · cases c <;> decide

end Mzd
